import Mathlib

/-!
Verification of the LeafScan-AI diagnosis pipeline.

Shallow embedding of `src/fastapi_server.py` and `src/mcp_server.py`:
pure helpers (`clean_llm_json`, the argmax/max selection, the speech builder)
are translated directly; the external capabilities (CNN models, the Groq LLM,
the filesystem and HTTP transport of the MCP tools) are passed in explicitly
as environment records, and the observable effect order of a request is
recorded as an event list.
-/

namespace LeafScan

/-- Decoded JSON values as produced by Python's `json.loads`.  Objects keep
their members in source order (duplicate keys are resolved at lookup time,
last occurrence winning, as Python dict construction does).  Number values
are kept as their source lexeme: no property below inspects numeric value,
so no floating-point interpretation is modelled. -/
inductive Json where
  | null : Json
  | bool (b : Bool) : Json
  | num (lexeme : String) : Json
  | str (s : String) : Json
  | arr (elems : List Json) : Json
  | obj (members : List (String × Json)) : Json

mutual

/-- Boolean structural equality on JSON values. -/
def jsonBeq : Json → Json → Bool
  | .null, .null => true
  | .bool a, .bool b => a == b
  | .num a, .num b => a == b
  | .str a, .str b => a == b
  | .arr xs, .arr ys => jsonBeqL xs ys
  | .obj xs, .obj ys => jsonBeqM xs ys
  | _, _ => false

def jsonBeqL : List Json → List Json → Bool
  | [], [] => true
  | x :: xs, y :: ys => jsonBeq x y && jsonBeqL xs ys
  | _, _ => false

def jsonBeqM : List (String × Json) → List (String × Json) → Bool
  | [], [] => true
  | (k1, v1) :: xs, (k2, v2) :: ys => k1 == k2 && jsonBeq v1 v2 && jsonBeqM xs ys
  | _, _ => false

end

/-- JSON insignificant whitespace (exactly the four characters Python's
`json` scanner skips). -/
def jWs (c : Char) : Bool := c = ' ' || c = '\t' || c = '\n' || c = '\r'

def skipWs (l : List Char) : List Char := l.dropWhile jWs

def hexVal (c : Char) : Option Nat :=
  if '0' ≤ c ∧ c ≤ '9' then some (c.toNat - 48)
  else if 'a' ≤ c ∧ c ≤ 'f' then some (c.toNat - 87)
  else if 'A' ≤ c ∧ c ≤ 'F' then some (c.toNat - 55)
  else none

/-- Parse the body of a JSON string literal (the characters after the opening
quote), returning the decoded string and the input after the closing quote.
Mirrors Python json's strict scanner: an unescaped control character or a bad
escape is an error; the escapes are the eight short ones plus `\uXXXX`
(surrogate-pair recombination is not modelled: no property depends on it). -/
def pStringAux : Nat → List Char → List Char → Option (String × List Char)
  | 0, _, _ => none
  | _ + 1, _, [] => none
  | f + 1, acc, c :: rest =>
    if c = '"' then some (String.mk acc.reverse, rest)
    else if c = '\\' then
      match rest with
      | [] => none
      | e :: rest2 =>
        if e = '"' then pStringAux f ('"' :: acc) rest2
        else if e = '\\' then pStringAux f ('\\' :: acc) rest2
        else if e = '/' then pStringAux f ('/' :: acc) rest2
        else if e = 'b' then pStringAux f ('\x08' :: acc) rest2
        else if e = 'f' then pStringAux f ('\x0c' :: acc) rest2
        else if e = 'n' then pStringAux f ('\n' :: acc) rest2
        else if e = 'r' then pStringAux f ('\r' :: acc) rest2
        else if e = 't' then pStringAux f ('\t' :: acc) rest2
        else if e = 'u' then
          match rest2 with
          | a :: b :: c2 :: d :: rest3 =>
            match hexVal a, hexVal b, hexVal c2, hexVal d with
            | some ha, some hb, some hc, some hd =>
              pStringAux f (Char.ofNat (((ha * 16 + hb) * 16 + hc) * 16 + hd) :: acc) rest3
            | _, _, _, _ => none
          | _ => none
        else none
    else if c.toNat < 32 then none
    else pStringAux f (c :: acc) rest

def isDigit (c : Char) : Bool := '0' ≤ c && c ≤ '9'

/-- Scan a JSON number lexeme at the head of the input, following Python
json's NUMBER_RE: `-?(0|[1-9][0-9]*)(\.[0-9]+)?([eE][-+]?[0-9]+)?`.
A fractional point or exponent marker not followed by a digit is simply not
consumed (exactly as the regex backs off), so e.g. `1.` scans as `1`
leaving `.` behind. -/
def pNumber (l : List Char) : Option (String × List Char) :=
  let signAndRest : List Char × List Char :=
    match l with
    | '-' :: r => (['-'], r)
    | _ => ([], l)
  let sign := signAndRest.1
  let l1 := signAndRest.2
  let intPart := if l1.headD 'x' = '0' then ['0'] else l1.takeWhile isDigit
  let l2 := l1.drop intPart.length
  if intPart.isEmpty then none
  else
    let fracAndRest : List Char × List Char :=
      match l2 with
      | '.' :: r =>
        let ds := r.takeWhile isDigit
        if ds.isEmpty then ([], l2) else ('.' :: ds, r.drop ds.length)
      | _ => ([], l2)
    let fracPart := fracAndRest.1
    let l3 := fracAndRest.2
    let expAndRest : List Char × List Char :=
      match l3 with
      | e :: r =>
        if e = 'e' || e = 'E' then
          let sgnAndRest : List Char × List Char :=
            match r with
            | '+' :: r2 => (['+'], r2)
            | '-' :: r2 => (['-'], r2)
            | _ => ([], r)
          let ds := sgnAndRest.2.takeWhile isDigit
          if ds.isEmpty then ([], l3)
          else (e :: (sgnAndRest.1 ++ ds), sgnAndRest.2.drop ds.length)
        else ([], l3)
      | [] => ([], l3)
    some (String.mk (sign ++ intPart ++ fracPart ++ expAndRest.1), expAndRest.2)

def startsWithL : List Char → List Char → Bool
  | [], _ => true
  | _ :: _, [] => false
  | p :: ps, c :: cs => p = c && startsWithL ps cs

mutual

/-- Parse one JSON value at the head of the input (the caller positions the
input at the value).  Fuel-indexed; `json_loads` supplies enough fuel for any
input, and every property below either holds for all fuel or is evaluated on
a concrete input. -/
def pVal : Nat → List Char → Option (Json × List Char)
  | 0, _ => none
  | f + 1, l =>
    match l with
    | [] => none
    | c :: rest =>
      if c = '\x7b' then
        match skipWs rest with
        | '\x7d' :: r => some (.obj [], r)
        | l1 =>
          match pMembers f l1 with
          | some (kvs, r) =>
            match r with
            | '\x7d' :: r2 => some (.obj kvs, r2)
            | _ => none
          | none => none
      else if c = '[' then
        match skipWs rest with
        | ']' :: r => some (.arr [], r)
        | l1 =>
          match pElems f l1 with
          | some (vs, r) =>
            match r with
            | ']' :: r2 => some (.arr vs, r2)
            | _ => none
          | none => none
      else if c = '"' then
        match pStringAux (rest.length + 1) [] rest with
        | some (s, r) => some (.str s, r)
        | none => none
      else if startsWithL ['t', 'r', 'u', 'e'] l then some (.bool true, l.drop 4)
      else if startsWithL ['f', 'a', 'l', 's', 'e'] l then some (.bool false, l.drop 5)
      else if startsWithL ['n', 'u', 'l', 'l'] l then some (.null, l.drop 4)
      else if startsWithL ['N', 'a', 'N'] l then some (.num "NaN", l.drop 3)
      else if startsWithL "Infinity".data l then some (.num "Infinity", l.drop 8)
      else if startsWithL "-Infinity".data l then some (.num "-Infinity", l.drop 9)
      else
        match pNumber l with
        | some (s, r) => some (.num s, r)
        | none => none

/-- Parse the members of a JSON object, up to (not including) the closing
brace; the returned rest has already had trailing whitespace skipped. -/
def pMembers : Nat → List Char → Option (List (String × Json) × List Char)
  | 0, _ => none
  | f + 1, l =>
    match skipWs l with
    | '"' :: r =>
      match pStringAux (r.length + 1) [] r with
      | some (k, r2) =>
        match skipWs r2 with
        | ':' :: r3 =>
          match pVal f (skipWs r3) with
          | some (v, r4) =>
            match skipWs r4 with
            | ',' :: r5 =>
              match pMembers f r5 with
              | some (kvs, r6) => some ((k, v) :: kvs, r6)
              | none => none
            | r5 => some ([(k, v)], r5)
          | none => none
        | _ => none
      | none => none
    | _ => none

/-- Parse the elements of a JSON array, up to (not including) the closing
bracket; the returned rest has already had trailing whitespace skipped. -/
def pElems : Nat → List Char → Option (List Json × List Char)
  | 0, _ => none
  | f + 1, l =>
    match pVal f (skipWs l) with
    | some (v, r) =>
      match skipWs r with
      | ',' :: r2 =>
        match pElems f r2 with
        | some (vs, r3) => some (v :: vs, r3)
        | none => none
      | r2 => some ([v], r2)
    | none => none

end

/-- Model of Python `json.loads`: one value, surrounding whitespace allowed,
trailing data rejected.  `none` is where Python raises `JSONDecodeError`. -/
def json_loads (s : String) : Option Json :=
  match pVal (2 * s.data.length + 2) (skipWs s.data) with
  | some (v, r) => if skipWs r = [] then some v else none
  | none => none

/-- The backtick character. -/
def tick : Char := '\x60'

/-- Split the input at the first occurrence of three consecutive backticks,
returning the text before the fence and the suffix starting at the fence. -/
def findFence : List Char → Option (List Char × List Char)
  | [] => none
  | c :: cs =>
    if (c :: cs).take 3 = [tick, tick, tick] then some ([], c :: cs)
    else
      match findFence cs with
      | some (p, r) => some (c :: p, r)
      | none => none

/-- Python `str.strip(ch)`: drop the given character from both ends. -/
def stripCharEnds (ch : Char) (l : List Char) : List Char :=
  ((l.dropWhile (· = ch)).reverse.dropWhile (· = ch)).reverse

/-- One-regex model of
`re.sub(r"^```.*?```$"-style fenced blocks, strip backticks, DOTALL)` as the
source writes it: each non-overlapping, lazily matched block between two
triple-backtick fences is replaced by the whole match with all leading and
trailing backticks stripped.  A fence with no later closing fence matches
nothing (nor can any later start match, since its closing fence would also
lie in the already-searched suffix). -/
def fenceSub : Nat → List Char → List Char
  | 0, l => l
  | f + 1, l =>
    match findFence l with
    | none => l
    | some (pre, atFence) =>
      match findFence (atFence.drop 3) with
      | none => l
      | some (mid, atClose) =>
        pre ++ stripCharEnds tick ([tick, tick, tick] ++ mid ++ [tick, tick, tick]) ++
          fenceSub f (atClose.drop 3)

/-- Python `str.replace` of a triple backtick by the empty string: remove
every left-to-right non-overlapping occurrence. -/
def removeFences : Nat → List Char → List Char
  | 0, l => l
  | f + 1, l =>
    match findFence l with
    | none => l
    | some (pre, atFence) => pre ++ removeFences f (atFence.drop 3)

/-- The characters Python `str.strip()` removes (`string.whitespace`; exotic
Unicode whitespace is not modelled — no property below depends on it). -/
def pyWsp (c : Char) : Bool :=
  c = ' ' || c = '\t' || c = '\n' || c = '\r' || c = '\x0b' || c = '\x0c'

def pyStrip (l : List Char) : List Char :=
  ((l.dropWhile pyWsp).reverse.dropWhile pyWsp).reverse

/-- Greedy DOTALL search for a brace-delimited span: the match runs from the
first open brace to the last close brace after it; when there is no such
span the text is left unchanged (the source only reassigns on a match). -/
def extractBraceSpan (l : List Char) : List Char :=
  let fromOpen := l.dropWhile (fun c => !(c = '\x7b'))
  let span := (fromOpen.reverse.dropWhile (fun c => !(c = '\x7d'))).reverse
  if span.isEmpty then l else span

/-- The candidate string `clean_llm_json` hands to `json.loads`: fenced-block
substitution, stray fence removal, strip, brace-span extraction. -/
def extractCandidate (raw_text : String) : String :=
  let step1 := fenceSub raw_text.data.length raw_text.data
  let step2 := pyStrip (removeFences step1.length step1)
  String.mk (extractBraceSpan step2)

/-- The fallback envelope `clean_llm_json` returns when decoding fails. -/
def invalidJsonEnvelope (raw_text : String) : Json :=
  .obj [("error", .str "Invalid JSON"), ("raw", .str raw_text)]

/-- `clean_llm_json` from src/fastapi_server.py. -/
def clean_llm_json (raw_text : String) : Json :=
  match json_loads (extractCandidate raw_text) with
  | some v => v
  | none => invalidJsonEnvelope raw_text

/-- Python `str.lower()`.  Modelled on the ASCII range, which is exact here:
no character outside ASCII lowercases (under Python's full Unicode rules) to
any letter of the words potato, tomato, pepper or healthy, so every
membership test below agrees with Python on all inputs. -/
def pyLower (s : String) : String := String.mk (s.data.map Char.toLower)

/-- Python dict lookup on an object built by `json.loads`: duplicate keys
are resolved to the last occurrence, as Python dict construction does. -/
def lookupLast (kvs : List (String × Json)) (k : String) : Option Json :=
  match kvs with
  | [] => none
  | (k', v) :: rest =>
    match lookupLast rest k with
    | some v' => some v'
    | none => if k' = k then some v else none

/-- The value of one field of a JSON object (none for non-objects or absent
keys); used only to state properties about returned envelopes. -/
def objField (j : Json) (k : String) : Option Json :=
  match j with
  | .obj kvs => lookupLast kvs k
  | _ => none

/-- Python `str()` as applied to the value interpolated into the speech
f-string.  Exact on strings — the only case any property below touches; the
remaining renderings approximate Python's and are never relied upon. -/
def pyStr : Json → String
  | .str s => s
  | .num s => s
  | .bool true => "True"
  | .bool false => "False"
  | .null => "None"
  | .arr _ => "[...]"
  | .obj _ => "\x7b...\x7d"

-- =========================================================
-- FastAPI server embedding (src/fastapi_server.py)
-- =========================================================

def POTATO_CLASSES : List String := ["Early Blight", "Late Blight", "Healthy"]

def PEPPER_CLASSES : List String := ["Bacterial Spot", "Healthy"]

def TOMATO_CLASSES : List String :=
  ["Target Spot", "Mosaic Virus", "Yellow Leaf Curl Virus", "Bacterial Spot",
   "Early Blight", "Healthy", "Late Blight", "Leaf Mold",
   "Septoria Leaf Spot", "Two Spotted Spider Mite"]

/-- Abstract decoded image array (the ndarray after `read_file_as_image`
and `np.expand_dims`). -/
abbrev Img := List Nat

/-- The external capabilities `/analyze` and `/plant_info` depend on: image
decoding, the three CNN models (each mapping the decoded image to its
probability row `preds[0]`), the two Groq LLM calls, and the uuid filename
`generate_audio` chooses. -/
structure Env where
  readFileAsImage : List Nat → Img
  potatoModel : Img → List ℚ
  pepperModel : Img → List ℚ
  tomatoModel : Img → List ℚ
  llmExplanation : String → String → String
  llmInfo : String → String
  audioId : String

/-- Observable effects of one `/analyze` request, in source order. -/
inductive Ev where
  | readImage
  | predict (model : String)
  | llm
  | tts
deriving DecidableEq, Repr

/-- How a request handler can fail: an explicit HTTPException, or an
uncaught Python exception (FastAPI's 500 path). -/
inductive Failure where
  | httpExc (status : Nat) (detail : String)
  | pyError (msg : String)
deriving DecidableEq, Repr

/-- The terminal JSON document of one `/analyze` run. -/
structure AnalyzeResponse where
  plant : String
  predicted_disease : String
  confidence : ℚ
  explanation : Json
  audio_url : String

/-- The fold behind `np.argmax`: a strictly greater element replaces the
best so far, so the first occurrence of the maximum is kept. -/
def argmaxAux : List ℚ → ℚ → Nat → Nat → Nat
  | [], _, _, best => best
  | x :: xs, bv, i, best =>
    if bv < x then argmaxAux xs x (i + 1) i else argmaxAux xs bv (i + 1) best

/-- `int(np.argmax(row))`: the first index attaining the maximum (numpy
documents the first-occurrence tie-break). -/
def np_argmax : List ℚ → Nat
  | [] => 0
  | x :: xs => argmaxAux xs x 1 0

def maxAux : List ℚ → ℚ → ℚ
  | [], m => m
  | x :: xs, m => maxAux xs (if m < x then x else m)

/-- `float(np.max(row))`. -/
def np_max : List ℚ → ℚ
  | [] => 0
  | x :: xs => maxAux xs x

/-- `path.split('/')[-1]`: the suffix after the last slash. -/
def lastCompAux : List Char → List Char → List Char
  | [], acc => acc.reverse
  | '/' :: rest, _ => lastCompAux rest []
  | c :: rest, acc => lastCompAux rest (c :: acc)

def lastComponent (s : String) : String := String.mk (lastCompAux s.data [])

/-- The inline fallback `/analyze` builds when the LLM output fails to
decode (note: distinct wording from `clean_llm_json`'s envelope, and
`/analyze` does not call `clean_llm_json`). -/
def fallbackExplanation (llm_json_str : String) : Json :=
  .obj [("error", .str "LLM produced invalid JSON"), ("raw", .str llm_json_str)]

/-- The explanation value `/analyze` computes from the LLM output string:
`json.loads` under a bare except, falling back to the inline envelope. -/
def explanationOf (env : Env) (plant disease : String) : Json :=
  match json_loads (env.llmExplanation plant disease) with
  | some v => v
  | none => fallbackExplanation (env.llmExplanation plant disease)

def noTreatmentMsg : String :=
  "No treatment available with me at this moment. Please contact a plant pathologist."

/-- The spoken-summary construction inside `/analyze`.  `none` models the
AttributeError Python raises when the decoded explanation is not a dict on
the diseased path (`explanation.get` on a non-dict). -/
def buildSpeech (plant disease : String) (explanation : Json) : Option String :=
  if pyLower disease = "healthy" then
    some ("The " ++ plant ++ " plant, is detected healthy.")
  else
    match explanation with
    | .obj kvs =>
      some ("For " ++ plant ++ " plant, the detected disease is " ++ disease ++
        ". The recommended treatment is: " ++
        pyStr ((lookupLast kvs "recommended_treatment").getD (.str noTreatmentMsg)) ++ ".")
    | _ => none

def invalidPlantMsg : String := "Invalid plant type. Use potato/pepper/tomato."

/-- The straight-line continuation of `/analyze` after the per-plant
dispatch: confidence, LLM explanation with inline fallback, speech, audio
asset, final response.  List indexing into the class vocabulary is modelled
total via `getD`; the real models return a probability row matching their
class count, and every index-related property below carries the row-shape
hypothesis explicitly. -/
def analyzeTail (env : Env) (plant disease : String) (preds : List ℚ) :
    List Ev × Except Failure AnalyzeResponse :=
  let confidence := np_max preds
  let explanation := explanationOf env plant disease
  match buildSpeech plant disease explanation with
  | none => ([.llm], .error (.pyError "AttributeError"))
  | some _speech =>
    let audio_path := "audio/" ++ env.audioId
    let audio_url := "/audio/" ++ lastComponent audio_path
    ([.llm, .tts],
     .ok { plant := plant, predicted_disease := disease, confidence := confidence,
           explanation := explanation, audio_url := audio_url })

/-- `analyze` (POST /analyze) from src/fastapi_server.py: the uploaded file
is read and decoded into an image first, then the plant dispatch runs, then
the shared tail. -/
def analyze (env : Env) (plant : String) (fileBytes : List Nat) :
    List Ev × Except Failure AnalyzeResponse :=
  let img := env.readFileAsImage fileBytes
  if pyLower plant = "potato" then
    let preds := env.potatoModel img
    let t := analyzeTail env plant (POTATO_CLASSES.getD (np_argmax preds) "") preds
    (Ev.readImage :: Ev.predict "potato" :: t.1, t.2)
  else if pyLower plant = "pepper" then
    let preds := env.pepperModel img
    let t := analyzeTail env plant (PEPPER_CLASSES.getD (np_argmax preds) "") preds
    (Ev.readImage :: Ev.predict "pepper" :: t.1, t.2)
  else if pyLower plant = "tomato" then
    let preds := env.tomatoModel img
    let t := analyzeTail env plant (TOMATO_CLASSES.getD (np_argmax preds) "") preds
    (Ev.readImage :: Ev.predict "tomato" :: t.1, t.2)
  else ([Ev.readImage], .error (.httpExc 400 invalidPlantMsg))

def validPlants : List String := ["potato", "tomato", "pepper"]

/-- Membership of the closed plant enumeration, as Python's tuple/list
membership tests write it. -/
def isValidPlant (s : String) : Bool :=
  s = "potato" || s = "tomato" || s = "pepper"

/-- `plant_info` (GET /plant_info/...) from src/fastapi_server.py. -/
def plant_info_ep (env : Env) (plant : String) : Except Failure Json :=
  if isValidPlant (pyLower plant) then
    let s := env.llmInfo plant
    let info :=
      match json_loads s with
      | some v => v
      | none => Json.obj [("error", .str "LLM produced invalid JSON"), ("raw", .str s)]
    .ok (.obj [("info", info)])
  else .error (.httpExc 400 invalidPlantMsg)

-- =========================================================
-- MCP server embedding (src/mcp_server.py)
-- =========================================================

def FASTAPI_URL : String := "http://localhost:8000"

/-- Outcome of one HTTP request made with the requests library, as the
caller observes it: a response (status, content-type header, body text) or
the raised transport exception. -/
inductive HttpOutcome where
  | resp (status : Nat) (contentType : Option String) (body : String)
  | timeout
  | connError
  | exc (msg : String)
deriving DecidableEq, Repr

/-- External state the MCP tools depend on: the filesystem existence check,
the HTTP transport per endpoint, and the strings `str(e)` renders for the
exceptions the generic handlers catch (a body that fails `resp.json()`, a
raised Timeout). -/
structure McpEnv where
  fileExists : String → Bool
  postAnalyze : String → String → HttpOutcome
  healthOutcome : HttpOutcome
  infoOutcome : String → HttpOutcome
  jsonErrStr : String → String
  timeoutMsg : String

/-- Observable external accesses of one MCP tool call, in source order. -/
inductive McpEv where
  | fileCheck
  | httpCall
deriving DecidableEq, Repr

/-- `health_check` from src/mcp_server.py.  A Timeout or any exception other
than ConnectionError lands in the generic handler (status "error"); a
body that fails `resp.json()` on the application/json path does too. -/
def health_check (env : McpEnv) : Json :=
  match env.healthOutcome with
  | .resp status ct body =>
    if status = 200 then
      if ct = some "application/json" then
        match json_loads body with
        | some v =>
          .obj [("status", .str "healthy"), ("backend_url", .str FASTAPI_URL),
                ("response", v)]
        | none => .obj [("status", .str "error"), ("details", .str (env.jsonErrStr body))]
      else
        .obj [("status", .str "healthy"), ("backend_url", .str FASTAPI_URL),
              ("response", .str body)]
    else
      .obj [("status", .str "unhealthy"), ("status_code", .num (toString status)),
            ("details", .str body)]
  | .timeout => .obj [("status", .str "error"), ("details", .str env.timeoutMsg)]
  | .connError =>
    .obj [("status", .str "unreachable"),
          ("details", .str ("Cannot connect to FastAPI server at " ++ FASTAPI_URL))]
  | .exc msg => .obj [("status", .str "error"), ("details", .str msg)]

/-- `analyze_plant` from src/mcp_server.py.  Plant validation runs before
the file check, which runs before the HTTP POST; the MIME-type computation
only shapes the multipart request and is absorbed into the transport
capability.  A 200 body that fails `resp.json()` raises inside the try and
lands in the catch-all (error "Unexpected error"). -/
def analyze_plant (env : McpEnv) (plant image_path : String) : List McpEv × Json :=
  if !(isValidPlant (pyLower plant)) then
    ([], .obj [("error", .str "Invalid plant type"),
               ("details", .str "Plant must be one of: potato, tomato, pepper")])
  else if !(env.fileExists image_path) then
    ([.fileCheck],
     .obj [("error", .str "File not found"),
           ("details", .str ("Image file does not exist: " ++ image_path))])
  else
    match env.postAnalyze (pyLower plant) image_path with
    | .resp status _ body =>
      if status = 200 then
        match json_loads body with
        | some v => ([.fileCheck, .httpCall], v)
        | none =>
          ([.fileCheck, .httpCall],
           .obj [("error", .str "Unexpected error"),
                 ("details", .str (env.jsonErrStr body))])
      else
        ([.fileCheck, .httpCall],
         .obj [("error", .str "FastAPI error"), ("status_code", .num (toString status)),
               ("details", .str body)])
    | .timeout =>
      ([.fileCheck, .httpCall],
       .obj [("error", .str "Request timed out"),
             ("details", .str "FastAPI server did not respond within 30 seconds")])
    | .connError =>
      ([.fileCheck, .httpCall],
       .obj [("error", .str "Connection failed"),
             ("details", .str ("Could not connect to FastAPI server at " ++ FASTAPI_URL))])
    | .exc msg =>
      ([.fileCheck, .httpCall],
       .obj [("error", .str "Unexpected error"), ("details", .str msg)])

/-- The `plant_info` tool from src/mcp_server.py. -/
def mcp_plant_info (env : McpEnv) (plant : String) : List McpEv × Json :=
  if !(isValidPlant (pyLower plant)) then
    ([], .obj [("error", .str "Invalid plant type"),
               ("supported_plants", .arr (validPlants.map Json.str))])
  else
    match env.infoOutcome (pyLower plant) with
    | .resp status _ body =>
      if status = 404 then
        ([.httpCall],
         .obj [("error", .str "Endpoint not implemented"),
               ("details", .str "FastAPI server does not have /plant_info endpoint")])
      else if status = 200 then
        match json_loads body with
        | some v => ([.httpCall], v)
        | none => ([.httpCall], .obj [("error", .str (env.jsonErrStr body))])
      else ([.httpCall], .obj [("error", .str "API error"), ("details", .str body)])
    | .timeout => ([.httpCall], .obj [("error", .str env.timeoutMsg)])
    | .connError => ([.httpCall], .obj [("error", .str "Connection failed")])
    | .exc msg => ([.httpCall], .obj [("error", .str msg)])

-- =========================================================
-- Concrete environments for witnesses and counterexamples
-- =========================================================

/-- A concrete FastAPI environment: identity image decoding, single-class
probability rows, an LLM that returns non-JSON text, a fixed audio uuid. -/
def env0 : Env where
  readFileAsImage := fun b => b
  potatoModel := fun _ => [1]
  pepperModel := fun _ => [1]
  tomatoModel := fun _ => [1]
  llmExplanation := fun _ _ => ""
  llmInfo := fun _ => ""
  audioId := "a.mp3"

/-- A concrete MCP environment whose backend replies 500 on /health. -/
def menvUnhealthy : McpEnv where
  fileExists := fun _ => true
  postAnalyze := fun _ _ => .resp 200 none "\x7b\x7d"
  healthOutcome := .resp 500 none "boom"
  infoOutcome := fun _ => .resp 200 none "\x7b\x7d"
  jsonErrStr := fun _ => "Expecting value: line 1 column 1 (char 0)"
  timeoutMsg := "timeout"

/-- A concrete MCP environment whose backend replies 200 with a body that is
not JSON. -/
def menvBadBody : McpEnv where
  fileExists := fun _ => true
  postAnalyze := fun _ _ => .resp 200 none "not json"
  healthOutcome := .resp 200 (some "application/json") "\x7b\x7d"
  infoOutcome := fun _ => .resp 200 none "\x7b\x7d"
  jsonErrStr := fun _ => "Expecting value: line 1 column 1 (char 0)"
  timeoutMsg := "timeout"

-- =========================================================
-- Selection lemmas: np_argmax / np_max
-- =========================================================

lemma maxAux_of_forall_le (xs : List ℚ) : ∀ m : ℚ, (∀ x ∈ xs, x ≤ m) → maxAux xs m = m := by
  induction xs with
  | nil => intro m _; rfl
  | cons x xs ih =>
    intro m h
    have hx : ¬ m < x := not_lt.mpr (h x (List.mem_cons_self _ _))
    simp only [maxAux, if_neg hx]
    exact ih m fun y hy => h y (List.mem_cons_of_mem _ hy)

lemma argmaxAux_of_forall_le (xs : List ℚ) : ∀ (bv : ℚ) (i best : Nat),
    (∀ x ∈ xs, x ≤ bv) → argmaxAux xs bv i best = best := by
  induction xs with
  | nil => intro bv i best _; rfl
  | cons x xs ih =>
    intro bv i best h
    have hx : ¬ bv < x := not_lt.mpr (h x (List.mem_cons_self _ _))
    simp only [argmaxAux, if_neg hx]
    exact ih bv (i + 1) best fun y hy => h y (List.mem_cons_of_mem _ hy)

lemma getD_mem_of_lt (l : List ℚ) (j : Nat) (h : j < l.length) : l.getD j 0 ∈ l := by
  rw [List.getD_eq_getElem l 0 h]
  exact List.getElem_mem h

/-- Joint accumulator invariant for the argmax/max folds when some element
beats the running best: the final index points (relative to the running
offset) at the first occurrence of the list maximum, which also equals the
final running max. -/
lemma argmaxAux_of_exists (xs : List ℚ) : ∀ (bv : ℚ) (i best : Nat),
    (∃ x ∈ xs, bv < x) →
    ∃ k, k < xs.length ∧ argmaxAux xs bv i best = i + k ∧
      maxAux xs bv = xs.getD k 0 ∧ bv < xs.getD k 0 ∧
      (∀ j, j < k → xs.getD j 0 < xs.getD k 0) ∧
      (∀ j, j < xs.length → xs.getD j 0 ≤ xs.getD k 0) := by
  induction xs with
  | nil =>
    rintro bv i best ⟨x, hx, -⟩
    exact absurd hx (List.not_mem_nil x)
  | cons x xs ih =>
    rintro bv i best ⟨y, hy, hby⟩
    by_cases hbx : bv < x
    · by_cases hex : ∃ z ∈ xs, x < z
      · obtain ⟨k, hk, hr, hm, hxk, hfirst, hle⟩ := ih x (i + 1) i hex
        refine ⟨k + 1, by simpa using Nat.succ_lt_succ hk, ?_, ?_, ?_, ?_, ?_⟩
        · simp only [argmaxAux, if_pos hbx]
          rw [hr]; omega
        · simp only [maxAux, if_pos hbx]
          simpa [List.getD_cons_succ] using hm
        · simpa [List.getD_cons_succ] using lt_trans hbx hxk
        · intro j hj
          match j with
          | 0 => simpa [List.getD_cons_succ, List.getD_cons_zero] using hxk
          | j' + 1 =>
            simpa [List.getD_cons_succ] using hfirst j' (by omega)
        · intro j hj
          match j with
          | 0 => simpa [List.getD_cons_succ, List.getD_cons_zero] using le_of_lt hxk
          | j' + 1 =>
            simpa [List.getD_cons_succ] using hle j' (by simpa using hj)
      · have h1 : ∀ z ∈ xs, z ≤ x := fun z hz => le_of_not_lt fun hlt => hex ⟨z, hz, hlt⟩
        refine ⟨0, Nat.succ_pos _, ?_, ?_, ?_, ?_, ?_⟩
        · simp only [argmaxAux, if_pos hbx]
          rw [argmaxAux_of_forall_le xs x (i + 1) i h1]; omega
        · simp only [maxAux, if_pos hbx]
          rw [maxAux_of_forall_le xs x h1]
          simp [List.getD_cons_zero]
        · simpa [List.getD_cons_zero] using hbx
        · intro j hj; omega
        · intro j hj
          match j with
          | 0 => simp [List.getD_cons_zero]
          | j' + 1 =>
            simpa [List.getD_cons_succ, List.getD_cons_zero] using
              h1 (xs.getD j' 0) (getD_mem_of_lt xs j' (by simpa using hj))
    · have hxy : y ∈ xs := by
        rcases List.mem_cons.mp hy with h | h
        · exact absurd (h ▸ hby) hbx
        · exact h
      obtain ⟨k, hk, hr, hm, hbk, hfirst, hle⟩ := ih bv (i + 1) best ⟨y, hxy, hby⟩
      have hxle : x ≤ bv := le_of_not_lt hbx
      refine ⟨k + 1, by simpa using Nat.succ_lt_succ hk, ?_, ?_, ?_, ?_, ?_⟩
      · simp only [argmaxAux, if_neg hbx]
        rw [hr]; omega
      · simp only [maxAux, if_neg hbx]
        simpa [List.getD_cons_succ] using hm
      · simpa [List.getD_cons_succ] using hbk
      · intro j hj
        match j with
        | 0 =>
          simpa [List.getD_cons_succ, List.getD_cons_zero] using
            lt_of_le_of_lt hxle hbk
        | j' + 1 =>
          simpa [List.getD_cons_succ] using hfirst j' (by omega)
      · intro j hj
        match j with
        | 0 =>
          simpa [List.getD_cons_succ, List.getD_cons_zero] using
            le_of_lt (lt_of_le_of_lt hxle hbk)
        | j' + 1 =>
          simpa [List.getD_cons_succ] using hle j' (by simpa using hj)

/-- Specification of the selection step on a non-empty probability row:
the selected index is in range, its probability is the row maximum, nothing
exceeds it, and everything strictly before it is strictly below it (ties go
to the first index). -/
lemma np_argmax_spec (l : List ℚ) (hne : l ≠ []) :
    np_argmax l < l.length ∧
      l.getD (np_argmax l) 0 = np_max l ∧
      (∀ j, j < l.length → l.getD j 0 ≤ np_max l) ∧
      (∀ j, j < np_argmax l → l.getD j 0 < np_max l) := by
  match l with
  | [] => exact absurd rfl hne
  | x :: xs =>
    by_cases hex : ∃ z ∈ xs, x < z
    · obtain ⟨k, hk, hr, hm, hxk, hfirst, hle⟩ := argmaxAux_of_exists xs x 1 0 hex
      have hargmax : np_argmax (x :: xs) = k + 1 := by
        simp only [np_argmax]
        omega
      have hmax : np_max (x :: xs) = xs.getD k 0 := by
        simpa [np_max] using hm
      refine ⟨?_, ?_, ?_, ?_⟩
      · rw [hargmax]; simp only [List.length_cons]; omega
      · rw [hargmax, hmax, List.getD_cons_succ]
      · intro j hj
        rw [hmax]
        match j with
        | 0 => simpa [List.getD_cons_zero] using le_of_lt hxk
        | j' + 1 => simpa [List.getD_cons_succ] using hle j' (by simpa using hj)
      · intro j hj
        rw [hmax]
        rw [hargmax] at hj
        match j with
        | 0 => simpa [List.getD_cons_zero] using hxk
        | j' + 1 => simpa [List.getD_cons_succ] using hfirst j' (by omega)
    · have h1 : ∀ z ∈ xs, z ≤ x := fun z hz => le_of_not_lt fun hlt => hex ⟨z, hz, hlt⟩
      have hargmax : np_argmax (x :: xs) = 0 := by
        simpa [np_argmax] using argmaxAux_of_forall_le xs x 1 0 h1
      have hmax : np_max (x :: xs) = x := by
        simpa [np_max] using maxAux_of_forall_le xs x h1
      refine ⟨?_, ?_, ?_, ?_⟩
      · rw [hargmax]; simp
      · rw [hargmax, hmax, List.getD_cons_zero]
      · intro j hj
        rw [hmax]
        match j with
        | 0 => simp [List.getD_cons_zero]
        | j' + 1 =>
          simpa [List.getD_cons_succ] using
            h1 (xs.getD j' 0) (getD_mem_of_lt xs j' (by simpa using hj))
      · intro j hj
        rw [hargmax] at hj
        omega

-- =========================================================
-- Dispatch helper lemmas
-- =========================================================

lemma analyze_invalid (env : Env) (plant : String) (bytes : List Nat)
    (h : isValidPlant (pyLower plant) = false) :
    analyze env plant bytes =
      ([Ev.readImage], .error (.httpExc 400 invalidPlantMsg)) := by
  have h1 : ¬ pyLower plant = "potato" := by
    intro e; simp [isValidPlant, e] at h
  have h2 : ¬ pyLower plant = "pepper" := by
    intro e; simp [isValidPlant, e] at h
  have h3 : ¬ pyLower plant = "tomato" := by
    intro e; simp [isValidPlant, e] at h
  simp [analyze, h1, h2, h3]

lemma analyze_snd_potato (env : Env) (plant : String) (bytes : List Nat)
    (h : pyLower plant = "potato") :
    (analyze env plant bytes).2 =
      (analyzeTail env plant
        (POTATO_CLASSES.getD (np_argmax (env.potatoModel (env.readFileAsImage bytes))) "")
        (env.potatoModel (env.readFileAsImage bytes))).2 := by
  simp [analyze, h]

lemma analyze_snd_pepper (env : Env) (plant : String) (bytes : List Nat)
    (h : pyLower plant = "pepper") :
    (analyze env plant bytes).2 =
      (analyzeTail env plant
        (PEPPER_CLASSES.getD (np_argmax (env.pepperModel (env.readFileAsImage bytes))) "")
        (env.pepperModel (env.readFileAsImage bytes))).2 := by
  simp [analyze, h]

lemma analyze_snd_tomato (env : Env) (plant : String) (bytes : List Nat)
    (h : pyLower plant = "tomato") :
    (analyze env plant bytes).2 =
      (analyzeTail env plant
        (TOMATO_CLASSES.getD (np_argmax (env.tomatoModel (env.readFileAsImage bytes))) "")
        (env.tomatoModel (env.readFileAsImage bytes))).2 := by
  simp [analyze, h]

/-- The tail never produces the 400 HTTPException: its only failure is the
AttributeError 500 path. -/
lemma analyzeTail_snd_ne_httpExc (env : Env) (plant disease : String) (preds : List ℚ)
    (n : Nat) (m : String) :
    (analyzeTail env plant disease preds).2 ≠ Except.error (.httpExc n m) := by
  unfold analyzeTail
  cases h : buildSpeech plant disease (explanationOf env plant disease) <;> simp [h]

/-- An invalid plant type is the only way to get the empty access trace out
of analyze_plant: every valid-plant path checks the file first. -/
lemma analyze_plant_fst_ne_nil (env : McpEnv) (plant path : String)
    (hv : isValidPlant (pyLower plant) = true) :
    (analyze_plant env plant path).1 ≠ [] := by
  unfold analyze_plant
  rw [hv]
  by_cases hf : env.fileExists path
  · rw [hf]
    cases hp : env.postAnalyze (pyLower plant) path with
    | resp status ct body =>
      by_cases hs : status = 200
      · cases hj : json_loads body <;> simp [hs, hj]
      · simp [hs]
    | timeout => simp
    | connError => simp
    | exc msg => simp
  · simp [hf]

lemma mcp_plant_info_fst_ne_nil (env : McpEnv) (plant : String)
    (hv : isValidPlant (pyLower plant) = true) :
    (mcp_plant_info env plant).1 ≠ [] := by
  unfold mcp_plant_info
  rw [hv]
  cases hp : env.infoOutcome (pyLower plant) with
  | resp status ct body =>
    by_cases h4 : status = 404
    · simp [h4]
    · by_cases hs : status = 200
      · cases hj : json_loads body <;> simp [h4, hs, hj]
      · simp [h4, hs]
  | timeout => simp
  | connError => simp
  | exc msg => simp

/-- Characterization of a successful tail run: the speech construction did
not fault, and the response fields are exactly the assembled ones. -/
lemma analyzeTail_snd_ok (env : Env) (plant disease : String) (preds : List ℚ)
    (r : AnalyzeResponse) :
    (analyzeTail env plant disease preds).2 = Except.ok r ↔
      (∃ sp, buildSpeech plant disease (explanationOf env plant disease) = some sp) ∧
        r = { plant := plant, predicted_disease := disease, confidence := np_max preds,
              explanation := explanationOf env plant disease,
              audio_url := "/audio/" ++ lastComponent ("audio/" ++ env.audioId) } := by
  unfold analyzeTail
  cases h : buildSpeech plant disease (explanationOf env plant disease) with
  | none => simp [h]
  | some sp => simp [h, eq_comm]

def requiredKeys : List String :=
  ["disease_overview", "symptoms", "cause", "recommended_treatment", "prevention_tips"]

/-- Whether a decoded document carries all five ExplanationDocument keys. -/
def hasAllRequiredKeys (j : Json) : Bool :=
  match j with
  | .obj kvs => requiredKeys.all fun k => kvs.any fun kv => kv.1 == k
  | _ => false

-- =========================================================
-- Claim theorems
-- =========================================================

/-- C1: clean_llm_json is total: for every input string it either returns the
decoded JSON document of the extracted candidate, or the fallback envelope
whose raw field is the original, pre-stripping input string exactly. -/
theorem c1_clean_llm_json_total (raw : String) :
    (∃ v, json_loads (extractCandidate raw) = some v ∧ clean_llm_json raw = v) ∨
      clean_llm_json raw =
        Json.obj [("error", Json.str "Invalid JSON"), ("raw", Json.str raw)] := by
  cases h : json_loads (extractCandidate raw) with
  | none => exact Or.inr (by simp [clean_llm_json, h, invalidJsonEnvelope])
  | some v => exact Or.inl ⟨v, rfl, by simp [clean_llm_json, h]⟩

/-- C2 counterexample: an input whose extracted JSON decodes successfully but
carries none of the five required keys is returned as the decoded document;
clean_llm_json performs no required-key check and returns no fallback here,
contradicting the claim. -/
theorem c2_counterexample :
    json_loads (extractCandidate "\x7b\"foo\": \"bar\"\x7d") =
        some (Json.obj [("foo", Json.str "bar")]) ∧
      hasAllRequiredKeys (Json.obj [("foo", Json.str "bar")]) = false ∧
      clean_llm_json "\x7b\"foo\": \"bar\"\x7d" = Json.obj [("foo", Json.str "bar")] ∧
      clean_llm_json "\x7b\"foo\": \"bar\"\x7d" ≠
        invalidJsonEnvelope "\x7b\"foo\": \"bar\"\x7d" := by
  refine ⟨rfl, rfl, rfl, ?_⟩
  intro h
  rw [show clean_llm_json "\x7b\"foo\": \"bar\"\x7d" =
        Json.obj [("foo", Json.str "bar")] from rfl,
      invalidJsonEnvelope] at h
  simp at h

/-- C2 (amended): whenever the extracted candidate decodes, clean_llm_json
returns the decoded document as-is — no required-key completeness check is
performed, even when all five ExplanationDocument keys are absent. -/
theorem c2_amended_no_key_check (s : String) (v : Json)
    (h : json_loads (extractCandidate s) = some v) :
    clean_llm_json s = v := by
  simp [clean_llm_json, h]

theorem c2_amended_witness :
    clean_llm_json "\x7b\"foo\": \"bar\"\x7d" = Json.obj [("foo", Json.str "bar")] :=
  c2_amended_no_key_check _ _ rfl

/-- C3 counterexample: on an invalid plant type the request does fail with
the invalid-plant-type error, but the uploaded image has already been read
and decoded before validation — the readImage effect is in the trace,
contradicting the no-image-decoding part of the claim. -/
theorem c3_counterexample :
    Ev.readImage ∈ (analyze env0 "banana" [0]).1 ∧
      (analyze env0 "banana" [0]).2 =
        Except.error (Failure.httpExc 400 invalidPlantMsg) := by
  refine ⟨?_, rfl⟩
  rw [show (analyze env0 "banana" [0]).1 = [Ev.readImage] from rfl]
  simp

/-- C3 (amended): an invalid plant type fails with the invalid-plant-type
400 error and no inference call is performed, but the image is decoded
before validation (the trace is exactly the readImage effect). -/
theorem c3_amended_no_inference (env : Env) (plant : String) (bytes : List Nat)
    (h : isValidPlant (pyLower plant) = false) :
    analyze env plant bytes =
        ([Ev.readImage], Except.error (Failure.httpExc 400 invalidPlantMsg)) ∧
      ∀ m, Ev.predict m ∉ (analyze env plant bytes).1 := by
  have he := analyze_invalid env plant bytes h
  refine ⟨he, ?_⟩
  intro m hm
  rw [he] at hm
  simp at hm

theorem c3_amended_witness :
    analyze env0 "banana" [0] =
      ([Ev.readImage], Except.error (Failure.httpExc 400 invalidPlantMsg)) :=
  (c3_amended_no_inference env0 "banana" [0] rfl).1

/-- The six error kinds analyze_plant can actually produce: the claim's five
plus the catch-all "Unexpected error". -/
def mcpErrorKinds : List String :=
  ["Invalid plant type", "File not found", "FastAPI error",
   "Request timed out", "Connection failed", "Unexpected error"]

/-- C4 counterexample: a 200 reply whose body is not JSON makes resp.json()
raise inside the try, and the catch-all handler returns the kind
"Unexpected error" — outside the claim's closed list of five kinds. -/
theorem c4_counterexample :
    (analyze_plant menvBadBody "potato" "leaf.jpg").2 =
        Json.obj [("error", Json.str "Unexpected error"),
                  ("details", Json.str "Expecting value: line 1 column 1 (char 0)")] ∧
      "Unexpected error" ∉ (["Invalid plant type", "File not found", "FastAPI error",
          "Request timed out", "Connection failed"] : List String) := by
  exact ⟨rfl, by decide⟩

/-- C4 (amended): every analyze_plant invocation returns either the decoded
200 payload of the backend or an error envelope whose kind is one of six —
the claim's five plus "Unexpected error" from the catch-all handler (no
exception escapes); an invalid plant is rejected before any file or network
access (the access trace is empty). -/
theorem c4_amended_six_kinds (env : McpEnv) (plant path : String) :
    (isValidPlant (pyLower plant) = false → (analyze_plant env plant path).1 = []) ∧
      ((∃ ct body v, env.postAnalyze (pyLower plant) path = HttpOutcome.resp 200 ct body ∧
          json_loads body = some v ∧ (analyze_plant env plant path).2 = v) ∨
        ∃ k, k ∈ mcpErrorKinds ∧
          objField (analyze_plant env plant path).2 "error" = some (Json.str k)) := by
  constructor
  · intro h
    simp [analyze_plant, h]
  · by_cases hv : isValidPlant (pyLower plant)
    · by_cases hf : env.fileExists path
      · cases hp : env.postAnalyze (pyLower plant) path with
        | resp status ct body =>
          by_cases hs : status = 200
          · cases hj : json_loads body with
            | some v =>
              refine Or.inl ⟨ct, body, v, ?_, hj, ?_⟩
              · rw [← hs]
              · simp [analyze_plant, hv, hf, hp, hs, hj]
            | none =>
              refine Or.inr ⟨"Unexpected error", by simp [mcpErrorKinds], ?_⟩
              simp [analyze_plant, hv, hf, hp, hs, hj, objField, lookupLast]
          · refine Or.inr ⟨"FastAPI error", by simp [mcpErrorKinds], ?_⟩
            simp [analyze_plant, hv, hf, hp, hs, objField, lookupLast]
        | timeout =>
          refine Or.inr ⟨"Request timed out", by simp [mcpErrorKinds], ?_⟩
          simp [analyze_plant, hv, hf, hp, objField, lookupLast]
        | connError =>
          refine Or.inr ⟨"Connection failed", by simp [mcpErrorKinds], ?_⟩
          simp [analyze_plant, hv, hf, hp, objField, lookupLast]
        | exc msg =>
          refine Or.inr ⟨"Unexpected error", by simp [mcpErrorKinds], ?_⟩
          simp [analyze_plant, hv, hf, hp, objField, lookupLast]
      · refine Or.inr ⟨"File not found", by simp [mcpErrorKinds], ?_⟩
        simp [analyze_plant, hv, hf, objField, lookupLast]
    · refine Or.inr ⟨"Invalid plant type", by simp [mcpErrorKinds], ?_⟩
      simp only [Bool.not_eq_true] at hv
      simp [analyze_plant, hv, objField, lookupLast]

theorem c4_amended_witness :
    (analyze_plant menvBadBody "banana" "x").1 = [] :=
  (c4_amended_six_kinds menvBadBody "banana" "x").1 rfl

/-- C5: for every valid plant, the response's predicted disease is the class
at the np_argmax index of that plant's probability row, its confidence is
the row maximum, and on a non-empty row the selected index is in range, its
probability is exactly the reported maximum, no probability exceeds it, and
every earlier index is strictly below it (exact ties break to the first
index in vocabulary order). -/
theorem c5_argmax_selection (env : Env) (plant : String) (bytes : List Nat)
    (r : AnalyzeResponse) (h : (analyze env plant bytes).2 = Except.ok r) :
    ∃ preds classes,
      ((pyLower plant = "potato" ∧ preds = env.potatoModel (env.readFileAsImage bytes) ∧
          classes = POTATO_CLASSES) ∨
        (pyLower plant = "pepper" ∧ preds = env.pepperModel (env.readFileAsImage bytes) ∧
          classes = PEPPER_CLASSES) ∨
        (pyLower plant = "tomato" ∧ preds = env.tomatoModel (env.readFileAsImage bytes) ∧
          classes = TOMATO_CLASSES)) ∧
      r.predicted_disease = classes.getD (np_argmax preds) "" ∧
      r.confidence = np_max preds ∧
      (preds ≠ [] →
        np_argmax preds < preds.length ∧
          preds.getD (np_argmax preds) 0 = np_max preds ∧
          (∀ j, j < preds.length → preds.getD j 0 ≤ np_max preds) ∧
          (∀ j, j < np_argmax preds → preds.getD j 0 < np_max preds)) := by
  by_cases hp : pyLower plant = "potato"
  · rw [analyze_snd_potato env plant bytes hp] at h
    obtain ⟨-, hr⟩ := (analyzeTail_snd_ok _ _ _ _ _).mp h
    subst hr
    exact ⟨_, _, Or.inl ⟨hp, rfl, rfl⟩, rfl, rfl, fun hne => np_argmax_spec _ hne⟩
  · by_cases hq : pyLower plant = "pepper"
    · rw [analyze_snd_pepper env plant bytes hq] at h
      obtain ⟨-, hr⟩ := (analyzeTail_snd_ok _ _ _ _ _).mp h
      subst hr
      exact ⟨_, _, Or.inr (Or.inl ⟨hq, rfl, rfl⟩), rfl, rfl, fun hne => np_argmax_spec _ hne⟩
    · by_cases ht : pyLower plant = "tomato"
      · rw [analyze_snd_tomato env plant bytes ht] at h
        obtain ⟨-, hr⟩ := (analyzeTail_snd_ok _ _ _ _ _).mp h
        subst hr
        exact ⟨_, _, Or.inr (Or.inr ⟨ht, rfl, rfl⟩), rfl, rfl, fun hne => np_argmax_spec _ hne⟩
      · have hfalse : isValidPlant (pyLower plant) = false := by
          simp [isValidPlant, hp, hq, ht]
        rw [analyze_invalid env plant bytes hfalse] at h
        simp at h

/-- The response env0 produces for plant "potato" on any input. -/
def resp0 : AnalyzeResponse :=
  { plant := "potato", predicted_disease := "Early Blight", confidence := 1,
    explanation := fallbackExplanation "", audio_url := "/audio/a.mp3" }

theorem c5_witness :
    ∃ preds classes,
      ((pyLower "potato" = "potato" ∧ preds = env0.potatoModel (env0.readFileAsImage [0]) ∧
          classes = POTATO_CLASSES) ∨
        (pyLower "potato" = "pepper" ∧ preds = env0.pepperModel (env0.readFileAsImage [0]) ∧
          classes = PEPPER_CLASSES) ∨
        (pyLower "potato" = "tomato" ∧ preds = env0.tomatoModel (env0.readFileAsImage [0]) ∧
          classes = TOMATO_CLASSES)) ∧
      resp0.predicted_disease = classes.getD (np_argmax preds) "" ∧
      resp0.confidence = np_max preds ∧
      (preds ≠ [] →
        np_argmax preds < preds.length ∧
          preds.getD (np_argmax preds) 0 = np_max preds ∧
          (∀ j, j < preds.length → preds.getD j 0 ≤ np_max preds) ∧
          (∀ j, j < np_argmax preds → preds.getD j 0 < np_max preds)) :=
  c5_argmax_selection env0 "potato" [0] resp0 rfl

/-- C6 counterexample: a concrete run whose explanation slot is the fallback
variant carries the error string "LLM produced invalid JSON", not
"Invalid JSON" (the /analyze endpoint builds its own inline envelope and
never calls clean_llm_json). -/
theorem c6_counterexample :
    (analyze env0 "potato" [0]).2 = Except.ok resp0 ∧
      objField resp0.explanation "error" = some (Json.str "LLM produced invalid JSON") ∧
      "LLM produced invalid JSON" ≠ "Invalid JSON" := by
  exact ⟨rfl, rfl, by decide⟩

/-- C6 (amended): whenever the LLM output fails to decode, the diagnosis
response's explanation slot is the inline fallback whose error field is
"LLM produced invalid JSON" and whose raw field is the original upstream
text verbatim. -/
theorem c6_amended_fallback_shape (env : Env) (plant : String) (bytes : List Nat)
    (r : AnalyzeResponse) (h : (analyze env plant bytes).2 = Except.ok r)
    (hj : json_loads (env.llmExplanation plant r.predicted_disease) = none) :
    r.explanation =
      Json.obj [("error", Json.str "LLM produced invalid JSON"),
                ("raw", Json.str (env.llmExplanation plant r.predicted_disease))] := by
  by_cases hp : pyLower plant = "potato"
  · rw [analyze_snd_potato env plant bytes hp] at h
    obtain ⟨-, hr⟩ := (analyzeTail_snd_ok _ _ _ _ _).mp h
    subst hr
    simp only [explanationOf] at hj ⊢
    rw [hj]
    rfl
  · by_cases hq : pyLower plant = "pepper"
    · rw [analyze_snd_pepper env plant bytes hq] at h
      obtain ⟨-, hr⟩ := (analyzeTail_snd_ok _ _ _ _ _).mp h
      subst hr
      simp only [explanationOf] at hj ⊢
      rw [hj]
      rfl
    · by_cases ht : pyLower plant = "tomato"
      · rw [analyze_snd_tomato env plant bytes ht] at h
        obtain ⟨-, hr⟩ := (analyzeTail_snd_ok _ _ _ _ _).mp h
        subst hr
        simp only [explanationOf] at hj ⊢
        rw [hj]
        rfl
      · have hfalse : isValidPlant (pyLower plant) = false := by
          simp [isValidPlant, hp, hq, ht]
        rw [analyze_invalid env plant bytes hfalse] at h
        simp at h

theorem c6_amended_witness :
    resp0.explanation =
      Json.obj [("error", Json.str "LLM produced invalid JSON"),
                ("raw", Json.str (env0.llmExplanation "potato" resp0.predicted_disease))] :=
  c6_amended_fallback_shape env0 "potato" [0] resp0 rfl rfl

/-- C7: the spoken summary is deterministic in the classification outcome:
a healthy label yields the healthy sentence; any other label yields the
disease sentence with the explanation's recommended_treatment field, or the
fixed disclaimer when that field is absent (as in a fallback envelope). -/
theorem c7_speech_construction (plant disease : String) (expl : Json) :
    (pyLower disease = "healthy" →
        buildSpeech plant disease expl =
          some ("The " ++ plant ++ " plant, is detected healthy.")) ∧
      (pyLower disease ≠ "healthy" → ∀ kvs, expl = Json.obj kvs →
        (lookupLast kvs "recommended_treatment" = none →
            buildSpeech plant disease expl =
              some ("For " ++ plant ++ " plant, the detected disease is " ++ disease ++
                ". The recommended treatment is: " ++ noTreatmentMsg ++ ".")) ∧
          ∀ t, lookupLast kvs "recommended_treatment" = some (Json.str t) →
            buildSpeech plant disease expl =
              some ("For " ++ plant ++ " plant, the detected disease is " ++ disease ++
                ". The recommended treatment is: " ++ t ++ ".")) := by
  constructor
  · intro h
    simp [buildSpeech, h]
  · intro h kvs hkvs
    subst hkvs
    constructor
    · intro hnone
      simp [buildSpeech, h, hnone, pyStr]
    · intro t hsome
      simp [buildSpeech, h, hsome, pyStr]

theorem c7_witness :
    buildSpeech "potato" "Early Blight" (fallbackExplanation "x") =
        some ("For potato plant, the detected disease is Early Blight. " ++
          "The recommended treatment is: " ++ noTreatmentMsg ++ ".") ∧
      buildSpeech "potato" "Healthy" (fallbackExplanation "x") =
        some "The potato plant, is detected healthy." := by
  constructor
  · have h := ((c7_speech_construction "potato" "Early Blight"
      (fallbackExplanation "x")).2 (by decide) _ rfl).1 rfl
    rw [h]
    rfl
  · exact (c7_speech_construction "potato" "Healthy" (fallbackExplanation "x")).1 rfl

/-- C8 counterexample: a non-200 backend reply produces a third shape,
status "unhealthy" with a status_code field — outside the claim's two
shapes. -/
theorem c8_counterexample :
    health_check menvUnhealthy =
        Json.obj [("status", Json.str "unhealthy"), ("status_code", Json.num "500"),
                  ("details", Json.str "boom")] ∧
      objField (health_check menvUnhealthy) "status" = some (Json.str "unhealthy") ∧
      objField (health_check menvUnhealthy) "backend_url" = none ∧
      "unhealthy" ≠ "unreachable" ∧ "unhealthy" ≠ "error" := by
  exact ⟨rfl, rfl, rfl, by decide, by decide⟩

/-- C8 (amended): health_check returns one of exactly three shapes — the
healthy one on a 200 reply, the unhealthy one (with status_code) on a
non-200 reply, or a status "unreachable"/"error" envelope with details. -/
theorem c8_amended_three_shapes (env : McpEnv) :
    (∃ v, health_check env =
        Json.obj [("status", Json.str "healthy"),
                  ("backend_url", Json.str FASTAPI_URL), ("response", v)]) ∨
      (∃ code details, health_check env =
        Json.obj [("status", Json.str "unhealthy"), ("status_code", Json.num code),
                  ("details", Json.str details)]) ∨
      (∃ st details, (st = "unreachable" ∨ st = "error") ∧ health_check env =
        Json.obj [("status", Json.str st), ("details", Json.str details)]) := by
  cases ho : env.healthOutcome with
  | resp status ct body =>
    by_cases hs : status = 200
    · by_cases hct : ct = some "application/json"
      · cases hj : json_loads body with
        | some v =>
          exact Or.inl ⟨v, by simp [health_check, ho, hs, hct, hj]⟩
        | none =>
          exact Or.inr (Or.inr ⟨"error", env.jsonErrStr body, Or.inr rfl,
            by simp [health_check, ho, hs, hct, hj]⟩)
      · exact Or.inl ⟨Json.str body, by simp [health_check, ho, hs, hct]⟩
    · exact Or.inr (Or.inl ⟨toString status, body, by simp [health_check, ho, hs]⟩)
  | timeout =>
    exact Or.inr (Or.inr ⟨"error", env.timeoutMsg, Or.inr rfl, by simp [health_check, ho]⟩)
  | connError =>
    exact Or.inr (Or.inr ⟨"unreachable", "Cannot connect to FastAPI server at " ++ FASTAPI_URL,
      Or.inl rfl, by simp [health_check, ho]⟩)
  | exc msg =>
    exact Or.inr (Or.inr ⟨"error", msg, Or.inr rfl, by simp [health_check, ho]⟩)

/-- C9: plant validation is case-insensitive at every public operation: each
of /analyze, /plant_info, analyze_plant and plant_info rejects with its
invalid-plant result exactly when the lowercased input is outside the
closed enumeration (so "Potato" or "TOMATO" are accepted). -/
theorem c9_case_insensitive_validation (env : Env) (menv : McpEnv) (plant : String)
    (bytes : List Nat) (path : String) :
    ((analyze env plant bytes).2 = Except.error (Failure.httpExc 400 invalidPlantMsg) ↔
        isValidPlant (pyLower plant) = false) ∧
      (plant_info_ep env plant = Except.error (Failure.httpExc 400 invalidPlantMsg) ↔
        isValidPlant (pyLower plant) = false) ∧
      (analyze_plant menv plant path =
          ([], Json.obj [("error", Json.str "Invalid plant type"),
              ("details", Json.str "Plant must be one of: potato, tomato, pepper")]) ↔
        isValidPlant (pyLower plant) = false) ∧
      (mcp_plant_info menv plant =
          ([], Json.obj [("error", Json.str "Invalid plant type"),
              ("supported_plants", Json.arr (validPlants.map Json.str))]) ↔
        isValidPlant (pyLower plant) = false) := by
  refine ⟨⟨?_, ?_⟩, ⟨?_, ?_⟩, ⟨?_, ?_⟩, ⟨?_, ?_⟩⟩
  · intro h
    by_cases hv : isValidPlant (pyLower plant) = false
    · exact hv
    · exfalso
      simp only [Bool.not_eq_false] at hv
      have hone : (pyLower plant = "potato" ∨ pyLower plant = "tomato") ∨
          pyLower plant = "pepper" := by
        simpa [isValidPlant] using hv
      rcases hone with (hp | ht) | hq
      · rw [analyze_snd_potato env plant bytes hp] at h
        exact analyzeTail_snd_ne_httpExc _ _ _ _ _ _ h
      · rw [analyze_snd_tomato env plant bytes ht] at h
        exact analyzeTail_snd_ne_httpExc _ _ _ _ _ _ h
      · rw [analyze_snd_pepper env plant bytes hq] at h
        exact analyzeTail_snd_ne_httpExc _ _ _ _ _ _ h
  · intro h
    rw [analyze_invalid env plant bytes h]
  · intro h
    by_cases hv : isValidPlant (pyLower plant) = false
    · exact hv
    · exfalso
      simp only [Bool.not_eq_false] at hv
      simp [plant_info_ep, hv] at h
  · intro h
    simp [plant_info_ep, h]
  · intro h
    by_cases hv : isValidPlant (pyLower plant) = false
    · exact hv
    · exfalso
      simp only [Bool.not_eq_false] at hv
      have h1 := analyze_plant_fst_ne_nil menv plant path hv
      rw [h] at h1
      exact h1 rfl
  · intro h
    simp [analyze_plant, h]
  · intro h
    by_cases hv : isValidPlant (pyLower plant) = false
    · exact hv
    · exfalso
      simp only [Bool.not_eq_false] at hv
      have h1 := mcp_plant_info_fst_ne_nil menv plant hv
      rw [h] at h1
      exact h1 rfl
  · intro h
    simp [mcp_plant_info, h]

/-- C10: on success the /analyze response's plant field is the caller's
input string echoed verbatim, not normalized to the lowercase enumeration
value. -/
theorem c10_plant_echoed (env : Env) (plant : String) (bytes : List Nat)
    (r : AnalyzeResponse) (h : (analyze env plant bytes).2 = Except.ok r) :
    r.plant = plant := by
  by_cases hp : pyLower plant = "potato"
  · rw [analyze_snd_potato env plant bytes hp] at h
    obtain ⟨-, hr⟩ := (analyzeTail_snd_ok _ _ _ _ _).mp h
    rw [hr]
  · by_cases hq : pyLower plant = "pepper"
    · rw [analyze_snd_pepper env plant bytes hq] at h
      obtain ⟨-, hr⟩ := (analyzeTail_snd_ok _ _ _ _ _).mp h
      rw [hr]
    · by_cases ht : pyLower plant = "tomato"
      · rw [analyze_snd_tomato env plant bytes ht] at h
        obtain ⟨-, hr⟩ := (analyzeTail_snd_ok _ _ _ _ _).mp h
        rw [hr]
      · have hfalse : isValidPlant (pyLower plant) = false := by
          simp [isValidPlant, hp, hq, ht]
        rw [analyze_invalid env plant bytes hfalse] at h
        simp at h

/-- The response env0 produces for the mixed-case input "Potato": the plant
field keeps the caller's capitalization. -/
def resp1 : AnalyzeResponse :=
  { plant := "Potato", predicted_disease := "Early Blight", confidence := 1,
    explanation := fallbackExplanation "", audio_url := "/audio/a.mp3" }

theorem c10_witness : resp1.plant = "Potato" :=
  c10_plant_echoed env0 "Potato" [0] resp1 rfl

end LeafScan
